import Mathlib

/-!
Shallow embedding of the nfs4go NFS v4 server core, restricted to the parts
the verified claims are about: credential equality (auth/authenticate.go),
the client registry and its CREATE_SESSION confirmation (clients package),
the v4.1 SEQUENCE slot logic and COMPOUND truncation (Compound.Run /
Compound.RunSequence), the CLOSE operation and the worker's open-file
tables, the change attribute, the clock's MustIncrement, the attribute
bitmap codec, and the stateid file-id packing.

Machine integers are modelled as Nat with explicit `% 2 ^ w` where the Go
code relies on wrap-around; Go maps are modelled as association lists with
first-match lookup; Go nil pointers and panics are modelled with Option.
-/

/-! ## NFS status and operation constants (msg package) -/

def NFS4_OK : Nat := 0
def NFS4ERR_STALE : Nat := 70
def NFS4ERR_NOTSUPP : Nat := 10004
def NFS4ERR_SERVERFAULT : Nat := 10006
def NFS4ERR_FHEXPIRED : Nat := 10014
def NFS4ERR_CLID_INUSE : Nat := 10017
def NFS4ERR_NOFILEHANDLE : Nat := 10020
def NFS4ERR_STALE_CLIENTID : Nat := 10022
def NFS4ERR_BAD_SEQID : Nat := 10026
def NFS4ERR_OP_ILLEGAL : Nat := 10044
def NFS4ERR_SEQ_MISORDERED : Nat := 10063
def NFS4ERR_RETRY_UNCACHED_REP : Nat := 10068
def NFS4ERR_OP_NOT_IN_SESSION : Nat := 10071
def NFS4ERR_DEADSESSION : Nat := 10078
def NFS4ERR_NOT_ONLY_OP : Nat := 10081

def OP4_CLOSE : Nat := 4
def OP4_BIND_CONN_TO_SESSION : Nat := 41
def OP4_EXCHANGE_ID : Nat := 42
def OP4_CREATE_SESSION : Nat := 43
def OP4_DESTROY_SESSION : Nat := 44
def OP4_SEQUENCE : Nat := 53

/-! ## fileid.go: stateid `other` field packing -/

/-- `FileOther` packs a 64-bit file id big-endian over the first two 32-bit
words of a stateid's `other` field and the client sequence id in the third:
`[3]uint32{uint32(fileID >> 32), uint32(fileID), clientSeqID}`. -/
def FileOther (fileID : Nat) (clientSeqID : Nat) : Nat × Nat × Nat :=
  (fileID / 2 ^ 32 % 2 ^ 32, fileID % 2 ^ 32, clientSeqID)

/-- `FileID` recovers the 64-bit file id:
`uint64(fileOther[0])<<32 + uint64(fileOther[1])`. -/
def FileID (fileOther : Nat × Nat × Nat) : Nat :=
  (fileOther.1 * 2 ^ 32 + fileOther.2.1) % 2 ^ 64

/-! ## clock/clock.go -/

/-- Clock.MustIncrement, time in whole seconds:
`now := c.now; if now.Before(prev) { now = now.Add(time.Second) }; return now`. -/
def Clock.MustIncrement (now prev : Int) : Int :=
  if now < prev then now + 1 else now

/-! ## attrs.go: the change attribute -/

/-- Conversion int64 → uint64, as Go applies to `fi.ModTime().Unix()`. -/
def toUint64 (i : Int) : Nat := (i % 2 ^ 64).toNat

/-- Value written for `A_change` in fileInfoToAttrs:
`uint64(fi.ModTime().Unix())*uint64(math.MaxUint32) + uint64(creds.UID) + sessionID`,
every uint64 operation wrapping modulo 2^64. Note the multiplier is
`math.MaxUint32 = 2^32 - 1`. -/
def changeAttr (mtimeUnix : Int) (uid sessionID : Nat) : Nat :=
  (((toUint64 mtimeUnix * 4294967295) % 2 ^ 64 + uid) % 2 ^ 64 + sessionID) % 2 ^ 64

/-! ## part_005: attribute bitmap codec -/

/-- Helper of `bitmap4Encode`: the write loop `rs[i] |= s` over all map
entries; `none` models Go's index-out-of-range panic when `v/32` falls
outside the allocated slice. -/
def bitmapSetBits : List (Nat × Bool) → List Nat → Option (List Nat)
  | [], rs => some rs
  | (v, flag) :: t, rs =>
    if !flag then bitmapSetBits t rs
    else if v / 32 < rs.length then
      bitmapSetBits t (rs.set (v / 32) (Nat.lor (rs.getD (v / 32) 0) (2 ^ (v % 32))))
    else none

/-- bitmap4Encode: computes `maxInt` over all keys, allocates
`size = maxInt/32 + (1 if maxInt%32 > 0)` words and ORs a bit per present
entry. The Go map is modelled as an association list. -/
def bitmap4Encode (x : List (Nat × Bool)) : Option (List Nat) :=
  let maxInt := x.foldl (fun m p => if p.1 > m then p.1 else m) 0
  let size := maxInt / 32 + (if maxInt % 32 > 0 then 1 else 0)
  bitmapSetBits x (List.replicate size 0)

/-- bitmap4Decode: entry `32*i + j ↦ (v >> j) & 1 == 1` for every word. -/
def bitmap4Decode (nums : List Nat) : List (Nat × Bool) :=
  nums.enum.flatMap fun p =>
    ((List.range 32).reverse).map fun j => (32 * p.1 + j, p.2.testBit j)

/-! ## auth/authenticate.go: credentials and their equality -/

/-- AUTH_FLAVOR_UNIX credential tuple (auth.Creds). -/
structure Creds where
  expirationValue : Nat
  hostname : String
  uid : Nat
  gid : Nat
  additionalGroups : List Nat
deriving DecidableEq, Repr

/-- Model of Go's `slices.Sort` on []uint32: ascending insertion sort. -/
def sortNat (l : List Nat) : List Nat := List.insertionSort (· ≤ ·) l

/-- Model of Go's `slices.Compact`: collapse runs of consecutive equal
elements to a single element. -/
def compact : List Nat → List Nat
  | [] => []
  | [a] => [a]
  | a :: b :: l => if a = b then compact (b :: l) else a :: compact (b :: l)

/-- Creds.Equal: fast path comparing the additional-group lists (ignoring
GID), a length-difference cutoff, then comparison of the sorted,
deduplicated gid-plus-groups lists. -/
def Creds.Equal (c other : Creds) : Bool :=
  if c.additionalGroups = other.additionalGroups then c.uid == other.uid
  else if (c.additionalGroups.length : Int) - (other.additionalGroups.length : Int) > 1 ∨
      (c.additionalGroups.length : Int) - (other.additionalGroups.length : Int) < -1 then
    false
  else
    let myGroups := compact (sortNat (c.gid :: c.additionalGroups))
    let otherGroups := compact (sortNat (other.gid :: other.additionalGroups))
    c.uid == other.uid && myGroups == otherGroups

/-! ## Association lists standing in for Go maps -/

/-- Lookup by key, first match (Go map access `m[k]`). -/
def aLookup {α β : Type} [DecidableEq α] : List (α × β) → α → Option β
  | [], _ => none
  | (k', v) :: t, k => if k = k' then some v else aLookup t k

/-- Replace the value stored at a key, leaving the list unchanged when the
key is absent (Go's in-place mutation of a stored struct). -/
def aUpdate {α β : Type} [DecidableEq α] : List (α × β) → α → β → List (α × β)
  | [], _, _ => []
  | (k', v) :: t, k, w => if k = k' then (k', w) :: t else (k', v) :: aUpdate t k w

/-- Delete a key (Go's `delete(m, k)`). -/
def aRemove {α β : Type} [DecidableEq α] : List (α × β) → α → List (α × β)
  | [], _ => []
  | (k', v) :: t, k => if k = k' then aRemove t k else (k', v) :: aRemove t k

/-! ## clients package: slots, clients, registry -/

/-- One encoded COMPOUND reply: the rewritable header (executed-op count and
final status; the verifier and tag are fixed per request and elided) followed
by one `(op, status)` result per executed operation, payloads abstracted. -/
structure ReplyBuf where
  headerCount : Nat
  headerStatus : Nat
  results : List (Nat × Nat)
deriving DecidableEq, Repr

/-- Slot of a session's reply cache. `buf = none` models a nil `Buf`
(non-persistent session); `some b` models an allocated buffer holding `b`. -/
structure Slot where
  slotID : Nat
  sequenceID : Nat
  containsData : Bool
  buf : Option ReplyBuf
deriving DecidableEq, Repr

/-- Client record. `sessions` maps a cache id to the session's slot array. -/
structure Client where
  name : List Nat
  verifier : Nat
  creds : Creds
  confirmed : Bool
  confirmValue : Nat
  seqID : Nat
  busy : Nat
  lastSeen : Nat
  sessions : List (Nat × List Slot)
deriving DecidableEq, Repr

/-- The client registry (Clients struct). -/
structure Clients where
  clients : List (Nat × Client)
deriving DecidableEq, Repr

/-- The maximum slot id for use in a session (slots start at 0). -/
def MaxSlotID : Nat := 15

/-- ClientIDFromSessionID: big-endian upper 8 bytes of the 16-byte session
id, the id modelled as a natural below 2^128. -/
def ClientIDFromSessionID (sessionID : Nat) : Nat := sessionID / 2 ^ 64

/-- CacheIDFromSessionID: big-endian lower 8 bytes. -/
def CacheIDFromSessionID (sessionID : Nat) : Nat := sessionID % 2 ^ 64

/-- Clients.Confirm41, the CREATE_SESSION handshake against the registry.
`now` stands for `clock.Now()`. Success returns the updated registry. -/
def Clients.Confirm41 (x : Clients) (now clientID seqID : Nat) (creds : Creds) :
    Except Nat Clients :=
  match aLookup x.clients clientID with
  | none => .error NFS4ERR_STALE_CLIENTID
  | some client =>
    if client.confirmed then
      if seqID = 0 ∧ client.seqID ≠ 0 then
        .ok ⟨aUpdate x.clients clientID { client with lastSeen := now, seqID := 0 }⟩
      else if seqID < client.seqID then
        .error NFS4ERR_SEQ_MISORDERED
      else if client.seqID = seqID then
        .ok x
      else
        .ok ⟨aUpdate x.clients clientID { client with lastSeen := now, seqID := seqID }⟩
    else
      if client.seqID ≠ seqID then
        .error NFS4ERR_STALE_CLIENTID
      else if ¬client.creds.Equal creds then
        .error NFS4ERR_CLID_INUSE
      else
        .ok ⟨aUpdate x.clients clientID { client with confirmed := true, lastSeen := now }⟩

/-- Clients.Get: returns only confirmed entries, touching `lastSeen`. -/
def Clients.Get (x : Clients) (now clientID : Nat) : Option Client × Clients :=
  match aLookup x.clients clientID with
  | none => (none, x)
  | some c =>
    if c.confirmed then
      (some { c with lastSeen := now },
       ⟨aUpdate x.clients clientID { c with lastSeen := now }⟩)
    else (none, x)

/-- Client.GetSlot: nil when the session is unknown or the slot id is out of
range of the slot array. -/
def Client.GetSlot (c : Client) (sessionID slotID : Nat) : Option Slot :=
  match aLookup c.sessions (CacheIDFromSessionID sessionID) with
  | none => none
  | some slots => if slots.length ≤ slotID then none else slots.get? slotID

/-- Store an updated slot back into the registry (in Go the slot is mutated
through a pointer into the client's session array). -/
def Clients.SetSlot (x : Clients) (clientID cacheID slotID : Nat) (s : Slot) : Clients :=
  match aLookup x.clients clientID with
  | none => x
  | some c =>
    match aLookup c.sessions cacheID with
    | none => x
    | some slots =>
      ⟨aUpdate x.clients clientID
        { c with sessions := aUpdate c.sessions cacheID (slots.set slotID s) }⟩

/-! ## part_006: the COMPOUND runtime -/

/-- Statuses that stop execution of a COMPOUND (FatalStatuses). -/
def FatalStatuses : List Nat :=
  [NFS4ERR_OP_ILLEGAL, NFS4ERR_OP_NOT_IN_SESSION, NFS4ERR_SERVERFAULT,
   NFS4ERR_NOTSUPP, NFS4ERR_FHEXPIRED, NFS4ERR_STALE]

/-- Operations a v4.1+ COMPOUND may start with (AllowedFirstOps41). -/
def AllowedFirstOps41 : List Nat :=
  [OP4_CREATE_SESSION, OP4_DESTROY_SESSION, OP4_SEQUENCE,
   OP4_BIND_CONN_TO_SESSION, OP4_EXCHANGE_ID]

/-- WriteHeaderAndSingleOperation: header for one op plus that op's result. -/
def WriteHeaderAndSingleOperation (op status : Nat) : ReplyBuf :=
  { headerCount := 1, headerStatus := status, results := [(op, status)] }

/-- RewriteHeaderIfNeeded: rewind the write cursor and rewrite the header
with the executed-op count and the final status, unless the provisional
header is already right. -/
def RewriteHeaderIfNeeded (requestedOps : Nat) (out : ReplyBuf)
    (opsCount lastStatus : Nat) : ReplyBuf :=
  if lastStatus = NFS4_OK ∧ opsCount = requestedOps then out
  else { out with headerCount := opsCount, headerStatus := lastStatus }

/-- The `for i := 1; i < OpsCount && !fatal(lastStatus)` loop shared by Run
and RunSequence: each remaining operation is an `(op, status)` pair giving
the op code and the status its execution returns. Results are the encoded
results appended to the reply; the second component is the final status. -/
def runLoop (lastStatus : Nat) : List (Nat × Nat) → List (Nat × Nat) × Nat
  | [] => ([], lastStatus)
  | (op, s) :: rest =>
    if lastStatus ∈ FatalStatuses then ([], lastStatus)
    else
      let r := runLoop s rest
      ((op, s) :: r.1, r.2)

/-- Provisional header, first executed op, remaining ops, header rewrite:
the common trunk of Compound.Run (after the v4.1 checks) and of
Compound.RunSequence after the SEQUENCE result is written. -/
def runCompoundOps (requestedOps : Nat) (first : Nat × Nat)
    (rest : List (Nat × Nat)) : ReplyBuf :=
  let r := runLoop first.2 rest
  RewriteHeaderIfNeeded requestedOps
    { headerCount := requestedOps, headerStatus := NFS4_OK, results := first :: r.1 }
    (1 + r.1.length) r.2

/-- Compound.Run for a COMPOUND that does not start with SEQUENCE. The first
operation is an `(op, status)` pair; the remaining ops likewise. The
requested op count is `1 + rest.length`. -/
def Compound.Run (minorVer : Nat) (first : Nat × Nat)
    (rest : List (Nat × Nat)) : ReplyBuf :=
  if minorVer > 0 ∧ first.1 ∉ AllowedFirstOps41 then
    WriteHeaderAndSingleOperation first.1 NFS4ERR_OP_NOT_IN_SESSION
  else if minorVer > 0 ∧ first.1 ≠ OP4_SEQUENCE ∧ 1 + rest.length > 1 then
    WriteHeaderAndSingleOperation first.1 NFS4ERR_NOT_ONLY_OP
  else
    runCompoundOps (1 + rest.length) first rest

/-- SEQUENCE4args as used by RunSequence. -/
structure SeqArgs where
  sessionID : Nat
  sequenceID : Nat
  slotID : Nat
  cacheThis : Bool
deriving DecidableEq, Repr

/-- Result of Compound.RunSequence. `replayCached` is the zero-copy replay
of the slot buffer; `crashed` models the nil-pointer dereference
`slot.Buf.Copy(out)` when `ContainsData` holds with a nil buffer. -/
inductive SeqResult where
  | reply (out : ReplyBuf)
  | replayCached (out : ReplyBuf)
  | crashed
deriving DecidableEq, Repr

/-- Compound.RunSequence: client lookup by the id embedded in the session
id, slot lookup, the slot sequence-id/reply-cache decision, then execution
of the remaining ops and caching of the reply when requested. -/
def Compound.RunSequence (x : Clients) (now : Nat) (args : SeqArgs)
    (rest : List (Nat × Nat)) : SeqResult × Clients :=
  let clientID := ClientIDFromSessionID args.sessionID
  match Clients.Get x now clientID with
  | (none, x') => (.reply (WriteHeaderAndSingleOperation OP4_SEQUENCE NFS4ERR_DEADSESSION), x')
  | (some client, x') =>
    match client.GetSlot args.sessionID args.slotID with
    | none => (.reply (WriteHeaderAndSingleOperation OP4_SEQUENCE NFS4ERR_DEADSESSION), x')
    | some slot =>
      if slot.sequenceID = args.sequenceID ∧ slot.containsData then
        match slot.buf with
        | some b => (.replayCached b, x')
        | none => (.crashed, x')
      else if slot.sequenceID = args.sequenceID ∧ slot.buf = none then
        (.reply (WriteHeaderAndSingleOperation OP4_SEQUENCE NFS4ERR_RETRY_UNCACHED_REP), x')
      else if slot.sequenceID ≠ args.sequenceID ∧ slot.sequenceID + 1 ≠ args.sequenceID then
        (.reply (WriteHeaderAndSingleOperation OP4_SEQUENCE NFS4ERR_SEQ_MISORDERED), x')
      else
        let containsData := args.cacheThis && slot.buf.isSome
        let out := runCompoundOps (1 + rest.length) (OP4_SEQUENCE, NFS4_OK) rest
        let slot' : Slot :=
          { slot with
            sequenceID := args.sequenceID
            containsData := containsData
            buf := if containsData then some out else slot.buf }
        (.reply out,
         x'.SetSlot clientID (CacheIDFromSessionID args.sessionID) args.slotID slot')

/-! ## worker package: open files, closed files, attribute cache -/

/-- Worker file entry (worker.File). `closeErr` stands for the status the
underlying `f.File.Close()` would map to via Err2Status, `none` meaning the
close succeeds. The owning client pointer (busy accounting) lives in the
registry and is referenced by id. -/
structure WFile where
  handle : List Nat
  clientID : Nat
  clientSeqID : Nat
  closeErr : Option Nat
deriving DecidableEq, Repr

/-- The worker tables relevant to CLOSE: open files, the closed-file set and
the attribute cache keyed by handle bytes (cache values abstracted). -/
structure Worker where
  files : List (Nat × WFile)
  closedFiles : List Nat
  attrCache : List (List Nat × Nat)
deriving DecidableEq, Repr

/-- Worker.RemoveFile: drop the entry from the open-file table and record
the file id in ClosedFiles (the caller's Client.Done is registry state not
modelled here). -/
def Worker.RemoveFile (w : Worker) (index : Nat) : Option WFile × Worker :=
  match aLookup w.files index with
  | none => (none, w)
  | some f =>
    (some f,
     { w with files := aRemove w.files index, closedFiles := index :: w.closedFiles })

/-- Worker.IsRemovedFile: membership in ClosedFiles. -/
def Worker.IsRemovedFile (w : Worker) (index : Nat) : Bool :=
  w.closedFiles.contains index

/-- Cache.Invalidate on the worker's attribute cache. -/
def Worker.CacheInvalidate (w : Worker) (handle : List Nat) : Worker :=
  { w with attrCache := aRemove w.attrCache handle }

/-- Current filehandle of a COMPOUND execution. -/
structure FileHandle where
  handle : List Nat
  path : String
deriving DecidableEq, Repr

/-- StateId4: seq id plus the three 32-bit `other` words. -/
structure StateId4 where
  seqId : Nat
  other : Nat × Nat × Nat
deriving DecidableEq, Repr

/-- Compound.Close: BAD_SEQID on seq id above 1, NOFILEHANDLE without a
current filehandle, idempotent success for an already-closed file id, else
remove the open file, invalidate its cached attributes and close it. The
result is the op status plus the returned stateid, if any. -/
def Compound.Close (currentHandle : Option FileHandle) (w : Worker)
    (args : StateId4) : (Nat × Option StateId4) × Worker :=
  if args.seqId > 1 then ((NFS4ERR_BAD_SEQID, none), w)
  else if currentHandle = none then ((NFS4ERR_NOFILEHANDLE, none), w)
  else if w.IsRemovedFile (FileID args.other) then
    ((NFS4_OK, some { seqId := 2, other := args.other }), w)
  else
    match w.RemoveFile (FileID args.other) with
    | (none, w') => ((NFS4ERR_BAD_SEQID, none), w')
    | (some f, w') =>
      let w'' := w'.CacheInvalidate f.handle
      match f.closeErr with
      | some s => ((s, none), w'')
      | none => ((NFS4_OK, some { seqId := 2, other := args.other }), w'')

/-! ## C9: FileID/FileOther invertibility -/

/-- C9: for every 64-bit file id and every 32-bit client sequence id,
`FileID (FileOther id seq) = id`: the big-endian split of the file id over
the first two words of the stateid's `other` field is inverted exactly. -/
theorem fileid_roundtrip (id seq : Nat) (h : id < 2 ^ 64) :
    FileID (FileOther id seq) = id := by
  simp only [FileOther, FileID]
  omega

/-- Witness for C9 at a concrete 64-bit file id. -/
theorem fileid_roundtrip_witness :
    2 ^ 63 + 5 < 2 ^ 64 ∧ FileID (FileOther (2 ^ 63 + 5) 7) = 2 ^ 63 + 5 :=
  ⟨by norm_num, fileid_roundtrip (2 ^ 63 + 5) 7 (by norm_num)⟩

/-! ## C6: the change attribute formula -/

/-- C6 counterexample: the claimed formula `unix(m) * 2^32 + uid + verifier`
does not match the code, which multiplies by `math.MaxUint32 = 2^32 - 1`:
at mtime 1, uid 0, verifier 0 the encoded value is 2^32 - 1, not 2^32. -/
theorem change_attr_claim_false :
    changeAttr 1 0 0 = 2 ^ 32 - 1 ∧
    changeAttr 1 0 0 ≠ (toUint64 1 * 2 ^ 32 + 0 + 0) % 2 ^ 64 := by
  constructor
  · decide
  · decide

/-- C6 (amended): the value encoded for the change attribute equals
`unix(m) * (2^32 - 1) + uid + session-verifier` in 64-bit modular
arithmetic (the multiplier is `math.MaxUint32`, not `2^32`). -/
theorem change_attr_amended (m : Int) (u s : Nat) :
    changeAttr m u s = (toUint64 m * (2 ^ 32 - 1) + u + s) % 2 ^ 64 := by
  simp only [changeAttr]
  have h : (2 : Nat) ^ 32 - 1 = 4294967295 := by norm_num
  rw [h]
  omega

/-! ## C7: Clock.MustIncrement -/

/-- C7: the code contradicts its own doc comment ("makes sure that it is
later than prev") and the spec formula `max(now, prev + 1s)`: when the
cached clock equals `prev` the function returns `prev` itself, and when the
clock lags `prev` by more than a second it returns a time still before
`prev`. -/
theorem mustIncrement_not_monotone :
    Clock.MustIncrement 100 100 = 100 ∧
    Clock.MustIncrement 100 100 ≠ max 100 (100 + 1) ∧
    ¬ (100 : Int) < Clock.MustIncrement 100 100 ∧
    Clock.MustIncrement 90 100 = 91 ∧
    Clock.MustIncrement 90 100 ≠ max 90 (100 + 1) := by
  refine ⟨by decide, by decide, by decide, by decide, by decide⟩

/-! ## C8: attribute bitmap round-trip -/

/-- C8: bitmap4Encode does not terminate normally on every set of attribute
ids: when the largest key is a multiple of 32 and marked present, the
allocated word count `maxInt/32 + (maxInt%32 > 0 ? 1 : 0)` is one word
short and the write `rs[v/32] |= s` indexes out of range (a Go panic,
`none` here). Attribute id 32 (or a request for id 0 alone) triggers it. -/
theorem bitmap4Encode_out_of_range :
    bitmap4Encode [(32, true)] = none ∧ bitmap4Encode [(0, true)] = none := by
  constructor
  · decide
  · decide

/-! ## C1: credential equality -/

theorem mem_compact : ∀ (l : List Nat) (x : Nat), x ∈ compact l ↔ x ∈ l
  | [], x => by simp [compact]
  | [a], x => by simp [compact]
  | a :: b :: l, x => by
    by_cases hab : a = b
    · subst hab
      rw [compact, if_pos rfl, mem_compact (a :: l) x]
      simp
    · rw [compact, if_neg hab]
      simp [mem_compact (b :: l) x]

theorem compact_sorted : ∀ (l : List Nat), l.Sorted (· ≤ ·) → (compact l).Sorted (· < ·)
  | [], _ => by simp [compact]
  | [a], _ => by simp [compact]
  | a :: b :: l, h => by
    obtain ⟨ha, ht⟩ := List.sorted_cons.mp h
    by_cases hab : a = b
    · rw [compact, if_pos hab]
      exact compact_sorted (b :: l) ht
    · have hlt : a < b := lt_of_le_of_ne (ha b (by simp)) hab
      rw [compact, if_neg hab]
      refine List.sorted_cons.mpr ⟨?_, compact_sorted (b :: l) ht⟩
      intro x hx
      rcases List.mem_cons.mp ((mem_compact _ _).mp hx) with rfl | hxl
      · exact hlt
      · exact lt_of_lt_of_le hlt ((List.sorted_cons.mp ht).1 x hxl)

theorem sorted_lt_ext : ∀ (l₁ l₂ : List Nat), l₁.Sorted (· < ·) → l₂.Sorted (· < ·) →
    (∀ x, x ∈ l₁ ↔ x ∈ l₂) → l₁ = l₂
  | [], [], _, _, _ => rfl
  | [], b :: l₂, _, _, h => absurd ((h b).mpr (by simp)) (by simp)
  | a :: l₁, [], _, _, h => absurd ((h a).mp (by simp)) (by simp)
  | a :: l₁, b :: l₂, h₁, h₂, h => by
    obtain ⟨ha, h₁'⟩ := List.sorted_cons.mp h₁
    obtain ⟨hb, h₂'⟩ := List.sorted_cons.mp h₂
    have hab : a = b := by
      rcases List.mem_cons.mp ((h a).mp (by simp)) with h' | h'
      · exact h'
      rcases List.mem_cons.mp ((h b).mpr (by simp)) with h'' | h''
      · exact h''.symm
      · exact absurd (lt_trans (ha b h'') (hb a h')) (lt_irrefl a)
    subst hab
    have htail : l₁ = l₂ := by
      refine sorted_lt_ext l₁ l₂ h₁' h₂' fun x => ⟨fun hx => ?_, fun hx => ?_⟩
      · rcases List.mem_cons.mp ((h x).mp (List.mem_cons_of_mem a hx)) with rfl | h'
        · exact absurd (ha x hx) (lt_irrefl x)
        · exact h'
      · rcases List.mem_cons.mp ((h x).mpr (List.mem_cons_of_mem a hx)) with rfl | h'
        · exact absurd (hb x hx) (lt_irrefl x)
        · exact h'
    rw [htail]

/-- Sorting then compacting two lists yields equal results exactly when the
lists have the same elements (as sets). -/
theorem mem_sortNat (l : List Nat) (x : Nat) : x ∈ sortNat l ↔ x ∈ l :=
  (List.perm_insertionSort (· ≤ ·) l).mem_iff

/-- Sorting then compacting two lists yields equal results exactly when the
lists have the same elements (as sets). -/
theorem compact_sortNat_eq_iff (l₁ l₂ : List Nat) :
    compact (sortNat l₁) = compact (sortNat l₂) ↔ ∀ x, x ∈ l₁ ↔ x ∈ l₂ := by
  constructor
  · intro h x
    rw [← mem_sortNat l₁ x, ← mem_sortNat l₂ x, ← mem_compact (sortNat l₁) x,
      ← mem_compact (sortNat l₂) x, h]
  · intro h
    apply sorted_lt_ext
    · exact compact_sorted _ (List.sorted_insertionSort _ l₁)
    · exact compact_sorted _ (List.sorted_insertionSort _ l₂)
    · intro x
      rw [mem_compact, mem_compact, mem_sortNat, mem_sortNat]
      exact h x

/-- Characterization of Creds.Equal as implemented. -/
theorem creds_equal_iff (a b : Creds) :
    a.Equal b = true ↔
      a.uid = b.uid ∧
        (a.additionalGroups = b.additionalGroups ∨
          (a.additionalGroups.length ≤ b.additionalGroups.length + 1 ∧
           b.additionalGroups.length ≤ a.additionalGroups.length + 1 ∧
           ∀ x, (x ∈ a.gid :: a.additionalGroups ↔ x ∈ b.gid :: b.additionalGroups))) := by
  unfold Creds.Equal
  split_ifs with h1 h2
  · simp only [beq_iff_eq]
    exact ⟨fun hu => ⟨hu, Or.inl h1⟩, fun h => h.1⟩
  · simp only [Bool.false_eq_true, false_iff]
    rintro ⟨-, hgl | ⟨hl1, hl2, -⟩⟩
    · exact h1 hgl
    · omega
  · dsimp only
    simp only [Bool.and_eq_true, beq_iff_eq, compact_sortNat_eq_iff]
    constructor
    · rintro ⟨hu, hs⟩
      exact ⟨hu, Or.inr ⟨by omega, by omega, hs⟩⟩
    · rintro ⟨hu, hgl | ⟨-, -, hs⟩⟩
      · exact absurd hgl h1
      · exact ⟨hu, hs⟩

/-- C1 counterexample: Creds.Equal is not equivalent to "same uid and same
group set": two tuples with identical (empty) additional-group lists but
different GIDs are Equal, because the fast path compares only the
additional-group lists and the uid, ignoring the GID. -/
theorem creds_equal_claim_false :
    ¬ ∀ a b : Creds, (a.Equal b = true ↔
      a.uid = b.uid ∧
        ∀ x, (x ∈ a.gid :: a.additionalGroups ↔ x ∈ b.gid :: b.additionalGroups)) := by
  intro h
  have h5 := ((h ⟨0, "", 1, 5, []⟩ ⟨0, "", 1, 6, []⟩).mp (by decide)).2 5
  simp at h5

/-- C1 (amended): Equal(a, b) holds iff the uids agree and either the
additional-group lists are identical (the GIDs then being ignored), or the
lists' lengths differ by at most one and the sets {gid} ∪ additional-groups
coincide; Equal remains reflexive and symmetric. -/
theorem creds_equal_amended :
    (∀ a b : Creds, a.Equal b = true ↔
      a.uid = b.uid ∧
        (a.additionalGroups = b.additionalGroups ∨
          (a.additionalGroups.length ≤ b.additionalGroups.length + 1 ∧
           b.additionalGroups.length ≤ a.additionalGroups.length + 1 ∧
           ∀ x, (x ∈ a.gid :: a.additionalGroups ↔ x ∈ b.gid :: b.additionalGroups)))) ∧
    (∀ a : Creds, a.Equal a = true) ∧
    (∀ a b : Creds, a.Equal b = b.Equal a) := by
  have hsymm : ∀ a b : Creds, a.Equal b = true → b.Equal a = true := by
    intro a b hab
    obtain ⟨hu, hg⟩ := (creds_equal_iff a b).mp hab
    refine (creds_equal_iff b a).mpr ⟨hu.symm, ?_⟩
    rcases hg with hgl | ⟨hl1, hl2, hs⟩
    · exact Or.inl hgl.symm
    · exact Or.inr ⟨hl2, hl1, fun x => (hs x).symm⟩
  refine ⟨creds_equal_iff, fun a => ?_, fun a b => ?_⟩
  · unfold Creds.Equal
    simp
  · cases hab : a.Equal b
    · cases hba : b.Equal a
      · rfl
      · exact absurd (hsymm b a hba) (by simp [hab])
    · exact (hsymm a b hab).symm

/-! ## C2: Confirm41 (CREATE_SESSION) -/

/-- C2 counterexample: for a confirmed client with stored seq-id 1, a
CREATE_SESSION with requested seq-id 3 — neither equal to the stored seq-id
nor to its successor — does not fail with SEQ_MISORDERED: the code accepts
any requested seq-id above the stored one and jumps the stored seq-id to
it. -/
theorem confirm41_claim_false :
    (3 ≠ 1 ∧ 3 ≠ 1 + 1) ∧
    Clients.Confirm41
        ⟨[(1, ⟨[], 0, ⟨0, "", 0, 0, []⟩, true, 0, 1, 0, 0, []⟩)]⟩ 9 1 3 ⟨0, "", 0, 0, []⟩
      = .ok ⟨[(1, ⟨[], 0, ⟨0, "", 0, 0, []⟩, true, 0, 3, 0, 9, []⟩)]⟩ := by
  refine ⟨⟨by decide, by decide⟩, by rfl⟩

/-- C2 (amended): for a stored client record, Confirm41 behaves as follows.
Already confirmed: a requested seq-id equal to the stored one is a replay
and succeeds without changing the registry; a requested seq-id of 0 while
the stored one is non-zero resets the stored seq-id to 0 and succeeds; any
requested seq-id above the stored one advances the stored seq-id to the
requested value and succeeds; a non-zero requested seq-id below the stored
one fails with SEQ_MISORDERED. Not yet confirmed: the call succeeds exactly
when the requested seq-id equals the stored one and the caller's
credentials equal the stored credentials. -/
theorem confirm41_amended (x : Clients) (now id seq : Nat) (creds : Creds)
    (client : Client) (hc : aLookup x.clients id = some client) :
    (client.confirmed = true →
      (client.seqID = seq → x.Confirm41 now id seq creds = .ok x) ∧
      (seq = 0 → client.seqID ≠ 0 →
        x.Confirm41 now id seq creds =
          .ok ⟨aUpdate x.clients id { client with lastSeen := now, seqID := 0 }⟩) ∧
      (client.seqID < seq →
        x.Confirm41 now id seq creds =
          .ok ⟨aUpdate x.clients id { client with lastSeen := now, seqID := seq }⟩) ∧
      (0 < seq → seq < client.seqID →
        x.Confirm41 now id seq creds = .error NFS4ERR_SEQ_MISORDERED)) ∧
    (client.confirmed = false →
      ((x.Confirm41 now id seq creds).isOk = true ↔
        client.seqID = seq ∧ client.creds.Equal creds = true)) := by
  constructor
  · intro hconf
    refine ⟨?_, ?_, ?_, ?_⟩
    · intro heq
      simp only [Clients.Confirm41, hc, hconf, if_true]
      split_ifs with h1 h2 <;> first | rfl | omega
    · intro h0 hne
      simp only [Clients.Confirm41, hc, hconf, if_true]
      split_ifs with h1 h2 h3 <;> first | rfl | omega
    · intro hlt
      simp only [Clients.Confirm41, hc, hconf, if_true]
      split_ifs with h1 h2 h3 <;> first | rfl | omega
    · intro hpos hlt
      simp only [Clients.Confirm41, hc, hconf, if_true]
      split_ifs with h1 <;> first | rfl | omega
  · intro hconf
    simp only [Clients.Confirm41, hc, hconf]
    rw [if_neg (by simp)]
    split_ifs with h1 h2
    · simp only [Except.isOk, Except.toBool, Bool.false_eq_true, false_iff]
      rintro ⟨heq, -⟩
      exact h1 heq
    · exact iff_of_true rfl ⟨by omega, h2⟩
    · simp only [Except.isOk, Except.toBool, Bool.false_eq_true, false_iff]
      rintro ⟨-, hcr⟩
      exact h2 hcr

/-- Witness for C2 at a concrete registry: a confirmed client with stored
seq-id 2 accepts a CREATE_SESSION with seq-id 5 and jumps to it. -/
theorem confirm41_amended_witness :
    Clients.Confirm41
        ⟨[(1, ⟨[], 0, ⟨0, "", 0, 0, []⟩, true, 0, 2, 0, 0, []⟩)]⟩ 7 1 5 ⟨0, "", 0, 0, []⟩
      = .ok ⟨[(1, ⟨[], 0, ⟨0, "", 0, 0, []⟩, true, 0, 5, 0, 7, []⟩)]⟩ :=
  ((confirm41_amended ⟨[(1, ⟨[], 0, ⟨0, "", 0, 0, []⟩, true, 0, 2, 0, 0, []⟩)]⟩ 7 1 5
      ⟨0, "", 0, 0, []⟩ ⟨[], 0, ⟨0, "", 0, 0, []⟩, true, 0, 2, 0, 0, []⟩ rfl).1 rfl).2.2.1
    (by decide)

/-! ## C4: fatal-status truncation -/

theorem runLoop_of_fatal (lastStatus : Nat) (rest : List (Nat × Nat))
    (h : lastStatus ∈ FatalStatuses) : runLoop lastStatus rest = ([], lastStatus) := by
  cases rest with
  | nil => rfl
  | cons p t =>
    obtain ⟨op, s⟩ := p
    simp [runLoop, h]

theorem runLoop_take : ∀ (rest : List (Nat × Nat)) (lastStatus j : Nat) (p : Nat × Nat),
    lastStatus ∉ FatalStatuses → rest[j]? = some p → p.2 ∈ FatalStatuses →
    (∀ i, i < j → ∀ q, rest[i]? = some q → q.2 ∉ FatalStatuses) →
    runLoop lastStatus rest = (rest.take (j + 1), p.2)
  | [], _, j, p, _, hj, _, _ => by simp at hj
  | (op, s) :: t, lastStatus, 0, p, hl, hj, hf, _ => by
    simp only [List.getElem?_cons_zero, Option.some.injEq] at hj
    subst hj
    simp only [runLoop, if_neg hl]
    rw [runLoop_of_fatal s t hf]
    simp
  | (op, s) :: t, lastStatus, j + 1, p, hl, hj, hf, hprev => by
    have hs : s ∉ FatalStatuses := by
      have := hprev 0 (by omega) (op, s) (by simp)
      simpa using this
    simp only [List.getElem?_cons_succ] at hj
    have ih := runLoop_take t s j p hs hj hf fun i hi q hq =>
      hprev (i + 1) (by omega) q (by simpa using hq)
    simp only [runLoop, if_neg hl, ih, List.take_succ_cons]

/-- C4: when the k-th executed operation of a COMPOUND returns a status in
the fatal set, no further operation is executed: the reply holds exactly
the first k per-operation results and the header is rewritten in place to
executed-op count k with that final status. Stated both for the execution
core shared by Run and RunSequence and for Compound.Run on a
non-sessioned COMPOUND. -/
theorem compound_fatal_truncation (first : Nat × Nat) (rest : List (Nat × Nat))
    (k : Nat) (p : Nat × Nat) (hk : 1 ≤ k)
    (hget : (first :: rest)[k - 1]? = some p)
    (hfatal : p.2 ∈ FatalStatuses)
    (hprev : ∀ i, i < k - 1 → ∀ q, (first :: rest)[i]? = some q → q.2 ∉ FatalStatuses) :
    runCompoundOps (1 + rest.length) first rest =
      { headerCount := k, headerStatus := p.2, results := (first :: rest).take k } ∧
    ((first :: rest).take k).length = k ∧
    Compound.Run 0 first rest =
      { headerCount := k, headerStatus := p.2, results := (first :: rest).take k } := by
  have hok : p.2 ≠ NFS4_OK := by
    intro h
    rw [h] at hfatal
    exact absurd hfatal (by decide)
  have hcore : runCompoundOps (1 + rest.length) first rest =
      { headerCount := k, headerStatus := p.2, results := (first :: rest).take k } := by
    rcases Nat.exists_eq_add_of_le hk with ⟨j, hkj⟩
    subst hkj
    simp only [Nat.add_sub_cancel_left] at hget hprev
    cases j with
    | zero =>
      simp only [List.getElem?_cons_zero, Option.some.injEq] at hget
      subst hget
      unfold runCompoundOps
      rw [runLoop_of_fatal first.2 rest hfatal]
      unfold RewriteHeaderIfNeeded
      rw [if_neg (fun h => hok h.1)]
      simp
    | succ j =>
      have hfirst : first.2 ∉ FatalStatuses := by
        have := hprev 0 (by omega) first (by simp)
        simpa using this
      simp only [List.getElem?_cons_succ] at hget
      have hloop := runLoop_take rest first.2 j p hfirst hget hfatal fun i hi q hq =>
        hprev (i + 1) (by omega) q (by simpa using hq)
      have hjlt : j < rest.length := by
        rcases List.getElem?_eq_some_iff.mp hget with ⟨hw, -⟩
        exact hw
      have hlen : (rest.take (j + 1)).length = j + 1 :=
        List.length_take_of_le (by omega)
      unfold runCompoundOps
      rw [hloop]
      unfold RewriteHeaderIfNeeded
      rw [if_neg (fun h => hok h.1)]
      simp only [List.take_succ_cons, ReplyBuf.mk.injEq]
      refine ⟨by omega, trivial, ?_⟩
      rw [show (1 : Nat) + (j + 1) = (j + 1) + 1 by omega, List.take_succ_cons]
  refine ⟨hcore, ?_, ?_⟩
  · have hlt : k - 1 < (first :: rest).length := by
      rcases List.getElem?_eq_some_iff.mp hget with ⟨hw, -⟩
      exact hw
    simp only [List.length_cons] at hlt
    rw [List.length_take_of_le (by simp only [List.length_cons]; omega)]
  · simpa [Compound.Run] using hcore

/-- Witness for C4: a three-op COMPOUND whose second op returns STALE is
truncated to two results with header count 2 and status STALE. -/
theorem compound_fatal_truncation_witness :
    Compound.Run 0 (22, NFS4_OK) [(9, NFS4ERR_STALE), (3, NFS4_OK)] =
      { headerCount := 2, headerStatus := NFS4ERR_STALE,
        results := [(22, NFS4_OK), (9, NFS4ERR_STALE)] } :=
  (compound_fatal_truncation (22, NFS4_OK) [(9, NFS4ERR_STALE), (3, NFS4_OK)] 2
    (9, NFS4ERR_STALE) (by decide) (by decide) (by decide)
    (by
      intro i hi q hq
      interval_cases i
      simp only [List.getElem?_cons_zero, Option.some.injEq] at hq
      subst hq
      decide)).2.2

/-! ## C3: SEQUENCE retry without cached data -/

/-- C3 counterexample: a slot whose stored sequence-id equals the request's
and which has no cached reply data (`containsData = false`) but does own a
reply buffer is NOT answered with a one-op RETRY_UNCACHED_REP: the code
only does that when the buffer itself is nil, and here it re-executes the
remaining operations (two results, header count 2). -/
theorem runSequence_retry_claim_false :
    ((⟨0, 5, false, some ⟨0, 0, []⟩⟩ : Slot).sequenceID = 5 ∧
     (⟨0, 5, false, some ⟨0, 0, []⟩⟩ : Slot).containsData = false) ∧
    (Compound.RunSequence
        ⟨[(1, ⟨[], 0, ⟨0, "", 0, 0, []⟩, true, 0, 0, 0, 0,
            [(2, [⟨0, 5, false, some ⟨0, 0, []⟩⟩])]⟩)]⟩
        9 ⟨2 ^ 64 + 2, 5, 0, false⟩ [(22, NFS4_OK)]).1 =
      .reply ⟨2, NFS4_OK, [(OP4_SEQUENCE, NFS4_OK), (22, NFS4_OK)]⟩ ∧
    (.reply ⟨2, NFS4_OK, [(OP4_SEQUENCE, NFS4_OK), (22, NFS4_OK)]⟩ : SeqResult) ≠
      .reply (WriteHeaderAndSingleOperation OP4_SEQUENCE NFS4ERR_RETRY_UNCACHED_REP) := by
  refine ⟨⟨rfl, rfl⟩, by decide, by decide⟩

/-- C3 (amended): for a v4.1+ COMPOUND beginning with SEQUENCE that
resolves to an existing slot, if the slot's stored sequence-id equals the
request's, the slot has no cached reply data and the slot owns no reply
buffer (non-persistent session), the server responds with a one-operation
RETRY_UNCACHED_REP reply and executes none of the remaining operations;
when such a slot does own a buffer the operations are re-executed
instead. -/
theorem runSequence_retry_amended (x : Clients) (now : Nat) (args : SeqArgs)
    (rest : List (Nat × Nat)) (client : Client) (slot : Slot)
    (hget : (Clients.Get x now (ClientIDFromSessionID args.sessionID)).1 = some client)
    (hslot : client.GetSlot args.sessionID args.slotID = some slot)
    (hseq : slot.sequenceID = args.sequenceID)
    (hcd : slot.containsData = false)
    (hbuf : slot.buf = none) :
    (Compound.RunSequence x now args rest).1 =
      .reply (WriteHeaderAndSingleOperation OP4_SEQUENCE NFS4ERR_RETRY_UNCACHED_REP) := by
  simp only [Compound.RunSequence]
  rcases hp : Clients.Get x now (ClientIDFromSessionID args.sessionID) with ⟨oc, x'⟩
  rw [hp] at hget
  simp only at hget
  subst hget
  simp only [hslot]
  rw [if_neg (by simp [hcd]), if_pos ⟨hseq, hbuf⟩]

/-- Witness for C3 at a concrete registry whose slot has no buffer: the
reply is the one-op RETRY_UNCACHED_REP. -/
theorem runSequence_retry_amended_witness :
    (Compound.RunSequence
        ⟨[(1, ⟨[], 0, ⟨0, "", 0, 0, []⟩, true, 0, 0, 0, 0, [(2, [⟨0, 5, false, none⟩])]⟩)]⟩
        9 ⟨2 ^ 64 + 2, 5, 0, false⟩ []).1 =
      .reply (WriteHeaderAndSingleOperation OP4_SEQUENCE NFS4ERR_RETRY_UNCACHED_REP) :=
  runSequence_retry_amended
    ⟨[(1, ⟨[], 0, ⟨0, "", 0, 0, []⟩, true, 0, 0, 0, 0, [(2, [⟨0, 5, false, none⟩])]⟩)]⟩
    9 ⟨2 ^ 64 + 2, 5, 0, false⟩ []
    ⟨[], 0, ⟨0, "", 0, 0, []⟩, true, 0, 0, 0, 9, [(2, [⟨0, 5, false, none⟩])]⟩
    ⟨0, 5, false, none⟩ (by rfl) (by rfl) (by rfl) (by rfl) (by rfl)

/-! ## C10: SEQUENCE failures yield a one-op DEADSESSION reply -/

theorem aLookup_aUpdate {α β : Type} [DecidableEq α] :
    ∀ (l : List (α × β)) (k : α) (v : β) (id : α),
      aLookup (aUpdate l k v) id =
        if id = k then (aLookup l k).map (fun _ => v) else aLookup l id
  | [], k, v, id => by
    simp only [aUpdate, aLookup, Option.map_none]
    split <;> rfl
  | (k', w) :: t, k, v, id => by
    by_cases hkk : k = k'
    · subst hkk
      simp only [aUpdate, if_pos rfl, aLookup]
      by_cases hik : id = k
      · simp [hik]
      · simp [hik]
    · simp only [aUpdate, if_neg hkk, aLookup]
      by_cases hik' : id = k'
      · subst hik'
        rw [if_pos rfl, if_neg (by tauto), if_pos rfl]
      · rw [if_neg hik', aLookup_aUpdate t k v id, if_neg hik']

/-- C10: a v4.1+ COMPOUND beginning with SEQUENCE whose session-id's upper
8 bytes do not name a confirmed client, or whose named client has no
session with that session-id, or whose slot-id exceeds MaxSlotID = 15
(sessions holding 16 slots), is answered with a one-operation DEADSESSION
reply, none of the remaining operations run, and every slot's sequence-id
and cached data are left unchanged (only the client's last-seen time may be
touched). -/
theorem runSequence_deadsession (x : Clients) (now : Nat) (args : SeqArgs)
    (rest : List (Nat × Nat))
    (hwf : ∀ c, aLookup x.clients (ClientIDFromSessionID args.sessionID) = some c →
      ∀ slots, aLookup c.sessions (CacheIDFromSessionID args.sessionID) = some slots →
        slots.length = 16)
    (h : (∀ c, aLookup x.clients (ClientIDFromSessionID args.sessionID) = some c →
            c.confirmed = false) ∨
         (∀ c, aLookup x.clients (ClientIDFromSessionID args.sessionID) = some c →
            aLookup c.sessions (CacheIDFromSessionID args.sessionID) = none) ∨
         MaxSlotID < args.slotID) :
    (Compound.RunSequence x now args rest).1 =
      .reply (WriteHeaderAndSingleOperation OP4_SEQUENCE NFS4ERR_DEADSESSION) ∧
    ∀ id, (aLookup (Compound.RunSequence x now args rest).2.clients id).map Client.sessions =
      (aLookup x.clients id).map Client.sessions := by
  cases hl : aLookup x.clients (ClientIDFromSessionID args.sessionID) with
  | none =>
    have hget : Clients.Get x now (ClientIDFromSessionID args.sessionID) = (none, x) := by
      simp [Clients.Get, hl]
    simp [Compound.RunSequence, hget]
  | some c =>
    cases hc : c.confirmed with
    | false =>
      have hget : Clients.Get x now (ClientIDFromSessionID args.sessionID) = (none, x) := by
        simp [Clients.Get, hl, hc]
      simp [Compound.RunSequence, hget]
    | true =>
      have hget : Clients.Get x now (ClientIDFromSessionID args.sessionID) =
          (some { c with lastSeen := now },
           ⟨aUpdate x.clients (ClientIDFromSessionID args.sessionID)
             { c with lastSeen := now }⟩) := by
        simp [Clients.Get, hl, hc]
      have hslot : Client.GetSlot { c with lastSeen := now } args.sessionID args.slotID
          = none := by
        unfold Client.GetSlot
        cases hs : aLookup c.sessions (CacheIDFromSessionID args.sessionID) with
        | none => simp
        | some slots =>
          rcases h with h1 | h2 | h3
          · exact absurd (h1 c hl) (by simp [hc])
          · exact absurd (h2 c hl) (by simp [hs])
          · have hlen : slots.length = 16 := hwf c hl slots hs
            simp only []
            rw [if_pos]
            have hm : MaxSlotID = 15 := rfl
            omega
      constructor
      · simp [Compound.RunSequence, hget, hslot]
      · intro id
        simp only [Compound.RunSequence, hget, hslot]
        rw [aLookup_aUpdate]
        split_ifs with hid
        · subst hid
          rw [hl]
          rfl
        · rfl

/-- Witness for C10: an empty registry answers any SEQUENCE with the
one-op DEADSESSION reply. -/
theorem runSequence_deadsession_witness :
    (Compound.RunSequence ⟨[]⟩ 0 ⟨2 ^ 64 + 2, 1, 0, false⟩ []).1 =
      .reply (WriteHeaderAndSingleOperation OP4_SEQUENCE NFS4ERR_DEADSESSION) :=
  (runSequence_deadsession ⟨[]⟩ 0 ⟨2 ^ 64 + 2, 1, 0, false⟩ []
    (fun c hc => absurd hc (by simp [aLookup]))
    (Or.inl fun c hc => absurd hc (by simp [aLookup]))).1

/-! ## C5: CLOSE idempotence -/

/-- C5: CLOSE is idempotent and replay-safe. With a stateid seq-id above 1
it fails BAD_SEQID; with a current filehandle set, a CLOSE naming a file-id
in the worker's closed-file set succeeds with stateid seq-id 2 leaving the
worker untouched; a first CLOSE of an open file (whose underlying close
succeeds) removes it from the open-file table, records it among the closed
files, drops the attribute-cache entry for its handle and returns seq-id 2;
hence CLOSE issued twice for the same file-id succeeds both times with
seq-id 2. -/
theorem close_idempotent (ch : Option FileHandle) (w : Worker) (args : StateId4)
    (f : WFile) :
    (args.seqId > 1 → Compound.Close ch w args = ((NFS4ERR_BAD_SEQID, none), w)) ∧
    (args.seqId ≤ 1 → ch ≠ none → w.IsRemovedFile (FileID args.other) = true →
      Compound.Close ch w args = ((NFS4_OK, some ⟨2, args.other⟩), w)) ∧
    (args.seqId ≤ 1 → ch ≠ none → w.IsRemovedFile (FileID args.other) = false →
      aLookup w.files (FileID args.other) = some f → f.closeErr = none →
      Compound.Close ch w args = ((NFS4_OK, some ⟨2, args.other⟩),
        ⟨aRemove w.files (FileID args.other), FileID args.other :: w.closedFiles,
         aRemove w.attrCache f.handle⟩)) ∧
    (args.seqId ≤ 1 → ch ≠ none → w.IsRemovedFile (FileID args.other) = false →
      aLookup w.files (FileID args.other) = some f → f.closeErr = none →
      (Compound.Close ch w args).1 = (NFS4_OK, some ⟨2, args.other⟩) ∧
      (Compound.Close ch (Compound.Close ch w args).2 args).1 =
        (NFS4_OK, some ⟨2, args.other⟩)) := by
  have hfirst : args.seqId ≤ 1 → ch ≠ none → w.IsRemovedFile (FileID args.other) = false →
      aLookup w.files (FileID args.other) = some f → f.closeErr = none →
      Compound.Close ch w args = ((NFS4_OK, some ⟨2, args.other⟩),
        ⟨aRemove w.files (FileID args.other), FileID args.other :: w.closedFiles,
         aRemove w.attrCache f.handle⟩) := by
    intro hseq hch hrem hfile herr
    unfold Compound.Close
    rw [if_neg (by omega), if_neg hch, if_neg (by simp [hrem])]
    unfold Worker.RemoveFile
    rw [hfile]
    simp only [Worker.CacheInvalidate, herr]
  refine ⟨?_, ?_, hfirst, ?_⟩
  · intro hseq
    unfold Compound.Close
    rw [if_pos hseq]
  · intro hseq hch hrem
    unfold Compound.Close
    rw [if_neg (by omega), if_neg hch, if_pos hrem]
  · intro hseq hch hrem hfile herr
    rw [hfirst hseq hch hrem hfile herr]
    refine ⟨rfl, ?_⟩
    have hrem2 : Worker.IsRemovedFile
        ⟨aRemove w.files (FileID args.other), FileID args.other :: w.closedFiles,
         aRemove w.attrCache f.handle⟩ (FileID args.other) = true := by
      simp [Worker.IsRemovedFile]
    unfold Compound.Close
    rw [if_neg (by omega), if_neg hch, if_pos hrem2]

/-- Witness for C5: closing an open file with file-id 10 succeeds with
seq-id 2, removes it from the tables and invalidates its cache entry. -/
theorem close_idempotent_witness :
    Compound.Close (some ⟨[7], ""⟩)
        ⟨[(10, ⟨[7], 1, 0, none⟩)], [], [([7], 0)]⟩ ⟨1, (0, 10, 0)⟩ =
      ((NFS4_OK, some ⟨2, (0, 10, 0)⟩), ⟨[], [10], []⟩) :=
  (close_idempotent (some ⟨[7], ""⟩) ⟨[(10, ⟨[7], 1, 0, none⟩)], [], [([7], 0)]⟩
    ⟨1, (0, 10, 0)⟩ ⟨[7], 1, 0, none⟩).2.2.1
    (by decide) (by simp) (by decide) rfl rfl
